import Mathlib

/-!
# Verification of the 42-intra HTTP client request pipeline

Shallow embedding of the request pipeline of `fortytwo-intra-client-js`
(`src/index.ts` together with `src/lib/errors.ts`): token lifecycle,
the retry state machine of `reqHandler`, the query-parameter merge of
`fetch`, and the pagination orchestrator `getAll`.

The HTTP transport is abstracted as a function from the attempt counter
(`options.attempt`) to the outcome of that transport attempt; tokens are
modelled as natural-number identifiers handed out by a counter, so that a
"fresh" token is one the generator has not issued before.
-/

namespace FortytwoIntra

/-! ## Token store (`this.access_token`, `generateToken`, lines 90-111) -/

/-- The client's mutable token cell plus the generator counter: `nextId` is
the identifier the next client-credentials grant will hand out, so tokens
issued by distinct grants are distinct. -/
structure TokenState where
  access_token : Option Nat
  nextId : Nat
deriving Repr, DecidableEq

/-- Result of the token-resolution prefix of `fetch` (lines 104-111):
the bearer token used, whether a client-credentials grant was performed
(`fresh`), and the updated token cell. -/
structure TokenFetch where
  tok : Nat
  fresh : Bool
  state : TokenState
deriving Repr, DecidableEq

/-- Lines 104-111 of `fetch`: if an explicit token override is supplied it is
used verbatim; otherwise the cached token is used, a client-credentials
grant being performed first when the cache is empty. -/
def fetchToken (override : Option Nat) (s : TokenState) : TokenFetch :=
  match override with
  | some t => ⟨t, false, s⟩
  | none =>
    match s.access_token with
    | some t => ⟨t, false, s⟩
    | none => ⟨s.nextId, true, ⟨some s.nextId, s.nextId + 1⟩⟩

/-! ## Errors (`src/lib/errors.ts`) -/

/-- The parts of an axios error that `reqHandler` and `simplifyAxiosError`
inspect. `status = none` models an error without a response. -/
structure AxiosErr where
  status : Option Nat
  statusText : Option String
  method : Option String
  url : Option String
  message : String
deriving Repr, DecidableEq

/-- `FortytwoIntraClientError` of `src/lib/errors.ts`. `statusCode = none`
models the `NaN` placed there when the error carries no response. -/
structure FortytwoIntraClientError where
  message : String
  statusCode : Option Nat
  statusText : String
deriving Repr, DecidableEq

def statusNumStr : Option Nat → String
  | some c => Nat.repr c
  | none => "NaN"

/-- `simplifyAxiosError` of `src/lib/errors.ts`: normalize a failed transport
attempt into the structured domain error. -/
def simplifyAxiosError (e : AxiosErr) : FortytwoIntraClientError :=
  let statusText := e.statusText.getD "Unknown"
  { message :=
      match e.method, e.url with
      | some m, some u =>
          m.toUpper ++ " " ++ u ++ " - HTTP " ++ statusNumStr e.status ++ " " ++ statusText
      | _, _ => e.message
    statusCode := e.status
    statusText := statusText }

/-! ## The retry dispatcher `reqHandler` (lines 138-164) -/

/-- Line 81: the fixed retryable status set. -/
def retryOn : List Nat := [401, 429, 500]

/-- Outcome of one transport attempt: success, an axios error (retry
candidate), or a non-axios error (re-raised unchanged, line 161). -/
inductive AttemptOutcome (ρ : Type) where
  | ok (res : ρ)
  | axiosErr (e : AxiosErr)
  | otherErr
deriving DecidableEq

/-- How one `reqHandler` call terminates: a response, the silent `undefined`
return when `throwOnError` is off, a thrown normalized error, or a re-raised
non-axios error. -/
inductive ReqResult (ρ : Type) where
  | success (res : ρ)
  | swallowed
  | thrown (e : FortytwoIntraClientError)
  | raisedOther
deriving DecidableEq

/-- Observable events of one logical request: a transport attempt (with the
attempt counter value, the bearer token used and whether that token was
freshly acquired by a client-credentials grant), or an invalidation of the
cached token (line 153). -/
inductive Event where
  | attemptMade (attemptIdx : Nat) (tokenUsed : Nat) (freshToken : Bool)
  | invalidateToken
deriving Repr, DecidableEq

/-- `status && this.retryOn.includes(status)` of line 151 (JS truthiness:
a missing status, or status `0`, is falsy). -/
def isRetryable (status : Option Nat) : Bool :=
  match status with
  | none => false
  | some c => c != 0 && retryOn.contains c

/-- The retry guard of line 151:
`maxRetry > 0 && attempt < maxRetry && status && retryOn.includes(status)`. -/
def shouldRetry (maxRetry attempt : Nat) (status : Option Nat) : Bool :=
  decide (0 < maxRetry) && decide (attempt < maxRetry) && isRetryable status

/-- `reqHandler` (lines 138-164), with the transport abstracted as the map
`outcomes` from the attempt counter to that attempt's outcome. Returns the
terminal result, the trace of observable events, and the final token state. -/
def reqHandler (outcomes : Nat → AttemptOutcome ρ) (maxRetry : Nat) (throwOnError : Bool)
    (tokenOverride : Option Nat) (attempt : Nat) (s : TokenState) :
    ReqResult ρ × List Event × TokenState :=
  let tf := fetchToken tokenOverride s
  let ev := Event.attemptMade attempt tf.tok tf.fresh
  match outcomes attempt with
  | .ok r => (.success r, [ev], tf.state)
  | .otherErr => (.raisedOther, [ev], tf.state)
  | .axiosErr e =>
    if h : shouldRetry maxRetry attempt e.status = true then
      if e.status == some 401 then
        let r := reqHandler outcomes maxRetry throwOnError tokenOverride (attempt + 1)
          { tf.state with access_token := none }
        (r.1, ev :: .invalidateToken :: r.2.1, r.2.2)
      else
        let r := reqHandler outcomes maxRetry throwOnError tokenOverride (attempt + 1) tf.state
        (r.1, ev :: r.2.1, r.2.2)
    else
      if throwOnError then (.thrown (simplifyAxiosError e), [ev], tf.state)
      else (.swallowed, [ev], tf.state)
termination_by maxRetry - attempt
decreasing_by
  all_goals
    simp only [shouldRetry, Bool.and_eq_true, decide_eq_true_eq] at h
    omega

/-- The attempt-counter values of the transport attempts in a trace. -/
def attemptIdxs (tr : List Event) : List Nat :=
  tr.filterMap fun ev =>
    match ev with
    | .attemptMade i _ _ => some i
    | _ => none

/-! ## The public `get` method (lines 190-208) -/

/-- The part of a response that `get` uses. -/
structure Resp (δ : Type) where
  data : δ
deriving Repr, DecidableEq

/-- How a public method call resolves: a value (possibly `undefined`,
modelled `none`), a thrown `FortytwoIntraClientError`, or a re-raised
non-axios error. -/
inductive CallResult (δ : Type) where
  | value (v : Option δ)
  | error (e : FortytwoIntraClientError)
  | otherError
deriving DecidableEq

/-- `get` (lines 190-208): dispatch through `reqHandler` with `attempt: 0`
and return `res?.data`. -/
def get (outcomes : Nat → AttemptOutcome (Resp δ)) (maxRetry : Nat) (throwOnError : Bool)
    (tokenOverride : Option Nat) (s : TokenState) : CallResult δ :=
  match (reqHandler outcomes maxRetry throwOnError tokenOverride 0 s).1 with
  | .success r => .value (some r.data)
  | .swallowed => .value none
  | .thrown e => .error e
  | .raisedOther => .otherError

/-! ## Pagination (`getAll`, lines 286-346) -/

/-- The relation map parsed from a `Link` response header (spec §3,
`PageLinkSet`): each relation maps to the page number extracted from that
relation's URL. -/
structure PageLinkSet where
  firstRel : Option Nat
  prevRel : Option Nat
  nextRel : Option Nat
  lastRel : Option Nat
deriving Repr, DecidableEq

/-- The part of a page response that `getAll` uses: the item list and the
(possibly absent) parsed `Link` header. -/
structure PageResponse (α : Type) where
  data : List α
  link : Option PageLinkSet
deriving DecidableEq

/-- Modelled from the spec: `getLastPage` lives in `src/lib/pagination`,
which is not among the provided sources (only its import and call site in
`src/index.ts` are). Per spec §4.5 step 2 it parses the `Link` header for
the `rel="last"` relation and extracts its `page` query parameter as an
integer; an absent or unparsable header makes it throw, the caller's
`catch` turning that into the single-page return path. The header is
modelled at the parsed-relation-map level. -/
def getLastPage (link : Option PageLinkSet) : Except Unit Nat :=
  match link with
  | none => .error ()
  | some ls =>
    match ls.lastRel with
    | none => .error ()
    | some p => .ok p

/-- The `try` block of lines 313-318:
`lastPage = Math.min(getLastPage(firstPage.headers["link"]), options.maxPages || Infinity)`.
When the page-1 dispatch was swallowed, `firstPage` is `undefined` and the
property access `firstPage.headers` itself throws (a `TypeError`), caught by
the same `catch`; this is the `none` case. `maxPages = some 0` is falsy in
`options.maxPages || Infinity` and therefore does not cap. On success the
(necessarily present) first-page response is returned with the capped last
page. -/
def tryLastPage (firstPage : Option (PageResponse α)) (maxPages : Option Nat) :
    Except Unit (PageResponse α × Nat) :=
  match firstPage with
  | none => .error ()
  | some fp =>
    match getLastPage fp.link with
    | .error _ => .error ()
    | .ok l =>
      .ok (fp,
        match maxPages with
        | some m => if m != 0 then min l m else l
        | none => l)

/-- The value a settled promise fulfils with: the response for a success,
`undefined` (`none`) for a swallowed failure, nothing for a rejection. -/
def fulfillVal : ReqResult ρ → Option ρ
  | .success r => some r
  | _ => none

/-- The settlement events of a batch of dispatched promises, in completion
order: `sched` lists the positions (into `promises`) in the order in which
their network round-trips complete. -/
def settleEvents (promises : List (ReqResult ρ)) (sched : List Nat) :
    List (Nat × ReqResult ρ) :=
  sched.filterMap fun i => (promises.get? i).map (fun r => (i, r))

/-- The first rejection to settle, if any: `Promise.all` rejects with it. -/
def firstRejection (promises : List (ReqResult ρ)) (sched : List Nat) :
    Option (ReqResult ρ) :=
  (settleEvents promises sched).findSome? fun p =>
    match p.2 with
    | .thrown e => some (.thrown e)
    | .raisedOther => some .raisedOther
    | _ => none

/-- `Promise.all` resolution: once every promise has settled (and none was
rejected), the fulfilment values are assembled **by input position**,
irrespective of the completion order `sched`. `none` when some promise never
settles under `sched`. -/
def promiseAllValues (promises : List (ReqResult ρ)) (sched : List Nat) :
    Option (List (Option ρ)) :=
  let slots := (List.range promises.length).map
    fun i => (settleEvents promises sched).find? (fun p => p.1 == i)
  if slots.any (fun sl => sl.isNone) then none
  else some (slots.map fun sl =>
    match sl with
    | some (_, r) => fulfillVal r
    | none => none)

/-- How a `getAll` call terminates. `pending` models a `Promise.all` that
never resolves because some fanned-out promise never settles (impossible
when the completion order is a true permutation of the batch). -/
inductive GetAllResult (α : Type) where
  | items (xs : List α)
  | undef
  | raisedError (e : FortytwoIntraClientError)
  | raisedOther
  | typeError
  | pending
deriving DecidableEq

/-- Line 345: `firstPage?.data.concat(...followingPages.map((value) => value.data))`.
A swallowed fan-out page left `undefined` in `followingPages`, and
`value.data` on `undefined` throws a `TypeError`; otherwise the pages'
item lists are concatenated after page 1's, in input (page-number) order. -/
def mergePages (fp : PageResponse α) (following : List (Option (PageResponse α))) :
    GetAllResult α :=
  if following.any (fun o => o.isNone) then .typeError
  else .items (fp.data ++ ((following.filterMap id).map PageResponse.data).flatten)

/-- Lines 320-345: await all fan-out promises and merge. -/
def awaitAllAndMerge (fp : PageResponse α) (promises : List (ReqResult (PageResponse α)))
    (sched : List Nat) : GetAllResult α :=
  match firstRejection promises sched with
  | some (.thrown e) => .raisedError e
  | some _ => .raisedOther
  | none =>
    match promiseAllValues promises sched with
    | none => .pending
    | some following => mergePages fp following

/-- `getAll` (lines 286-346), with each page's logical dispatch through
`reqHandler` abstracted as `dispatch : page number → ReqResult`, and the
fan-out's network completion order abstracted as `sched`. Returns the
call's result together with the list of page numbers dispatched, in
dispatch order. -/
def getAllSched (dispatch : Nat → ReqResult (PageResponse α)) (maxPages : Option Nat)
    (sched : List Nat) : GetAllResult α × List Nat :=
  match dispatch 1 with
  | .thrown e => (.raisedError e, [1])
  | .raisedOther => (.raisedOther, [1])
  | r1 =>
    let firstPage : Option (PageResponse α) := fulfillVal r1
    match tryLastPage firstPage maxPages with
    | .error _ =>
      -- catch: `return firstPage?.data`
      (match firstPage with
       | none => .undef
       | some fp => .items fp.data, [1])
    | .ok (fp, lastPage) =>
      let fanout := List.range' 2 (lastPage - 1)
      let promises := fanout.map dispatch
      (awaitAllAndMerge fp promises sched, 1 :: fanout)

/-! ## The query-parameter merge of `fetch` (lines 113-135) -/

/-- A JS plain object used as a string map, as an insertion-ordered
association list: `recSet` is property assignment (`obj[k] = v`), which
overwrites in place when the key exists and appends otherwise. Objects here
are only ever built from `[]` by `recSet`, so keys are pairwise distinct
and overwriting the first occurrence is overwriting the only one. -/
def recSet : List (String × String) → String → String → List (String × String)
  | [], k, v => [(k, v)]
  | p :: t, k, v => if p.1 == k then (k, v) :: t else p :: recSet t k v

/-- Property lookup on a JS object built by `recSet`. -/
def recGet (m : List (String × String)) (k : String) : Option String :=
  (m.find? (fun p => p.1 == k)).map (fun p => p.2)

/-- Lines 114-117: `url.searchParams.forEach((value, key) => urlParams[key] = value)`.
`URLSearchParams` iterates every pair in order, duplicates included, so the
last occurrence of a key wins. -/
def buildUrlParams (sp : List (String × String)) : List (String × String) :=
  sp.foldl (fun m kv => recSet m kv.1 kv.2) []

/-- Object spread `{ ...a, ...b }`: start from `a`'s properties and assign
each of `b`'s in order. -/
def spread (a b : List (String × String)) : List (String × String) :=
  b.foldl (fun m kv => recSet m kv.1 kv.2) a

/-- A URL as `fetch` sees it: the non-query part and the query pairs. -/
structure UrlModel where
  base : String
  searchParams : List (String × String)
deriving DecidableEq

/-- Lines 113-135 of `fetch`: the clean URL and the combined parameter map
handed to the transport (`cleanUrl.search = ''`,
`combinedParams = { ...urlParams, ...query }`). -/
def fetchTransportArgs (url : UrlModel) (query : List (String × String)) :
    UrlModel × List (String × String) :=
  let urlParams := buildUrlParams url.searchParams
  let combinedParams := spread urlParams query
  let cleanUrl : UrlModel := { url with searchParams := [] }
  (cleanUrl, combinedParams)

/-- The value of the last occurrence of key `k` in a pair list (the value a
JS object ends up holding after assigning the pairs in order). -/
def lastVal (l : List (String × String)) (k : String) : Option String :=
  (l.reverse.find? (fun p => p.1 == k)).map (fun p => p.2)

/-! ## Concrete fixtures used to instantiate the theorems -/

/-- A concrete 500 response error. -/
def err500 : AxiosErr := ⟨some 500, some "Internal Server Error", some "get", some "users", "boom"⟩

/-- A concrete 401 response error. -/
def err401 : AxiosErr := ⟨some 401, some "Unauthorized", some "get", some "users", "boom"⟩

/-- A concrete 404 response error. -/
def err404 : AxiosErr := ⟨some 404, some "Not Found", some "get", some "users", "boom"⟩

/-- The token cell of a freshly constructed client (line 87). -/
def initialTokenState : TokenState := ⟨none, 0⟩

/-- A transport that fails every attempt with a 500. -/
def alwaysFive00 : Nat → AttemptOutcome (Resp Nat) := fun _ => .axiosErr err500

/-- A transport that fails every attempt with a 401. -/
def alwaysFour01 : Nat → AttemptOutcome (Resp Nat) := fun _ => .axiosErr err401

/-- A transport that fails the first attempt with a 404 and would succeed
afterwards (the retries that never happen). -/
def four04ThenOk : Nat → AttemptOutcome (Resp Nat) :=
  fun k => if k == 0 then .axiosErr err404 else .ok ⟨7⟩

/-- Page `i` of a three-page server: items `[10*i, 10*i+1]`, page 1's
`Link` header reporting `rel="last"` page 3. -/
def threePageData (i : Nat) : PageResponse Nat :=
  ⟨[10 * i, 10 * i + 1],
    if i == 1 then some ⟨some 1, none, some 2, some 3⟩ else none⟩

/-- A three-page server: every page dispatch succeeds. -/
def threePageServer : Nat → ReqResult (PageResponse Nat) := fun i =>
  .success (threePageData i)

/-- A server whose page-1 response carries no `Link` header. -/
def noLinkServer : Nat → ReqResult (PageResponse Nat) := fun i => .success ⟨[i], none⟩

/-- The three-page server with page 2's logical dispatch swallowed
(`throwOnError=false`, retries exhausted). -/
def swallowedPage2Server : Nat → ReqResult (PageResponse Nat) := fun i =>
  if i == 2 then .swallowed else threePageServer i

/-- A server whose page-1 logical dispatch is swallowed. -/
def swallowedPage1Server : Nat → ReqResult (PageResponse Nat) := fun _ => .swallowed

/-! ## Unfolding lemmas for `reqHandler` -/

theorem shouldRetry_lt {m a : Nat} {st : Option Nat}
    (h : shouldRetry m a st = true) : a < m := by
  simp only [shouldRetry, Bool.and_eq_true, decide_eq_true_eq] at h
  exact h.1.2

theorem shouldRetry_of_ge {m a : Nat} (st : Option Nat) (h : m ≤ a) :
    shouldRetry m a st = false := by
  have hd : decide (a < m) = false := by
    simp only [decide_eq_false_iff_not, Nat.not_lt]
    exact h
  simp [shouldRetry, hd]

theorem reqHandler_step_ok {outcomes : Nat → AttemptOutcome ρ} {m : Nat} {toe : Bool}
    {ov : Option Nat} {a : Nat} {s : TokenState} {r : ρ}
    (h : outcomes a = .ok r) :
    reqHandler outcomes m toe ov a s =
      (.success r,
       [Event.attemptMade a (fetchToken ov s).tok (fetchToken ov s).fresh],
       (fetchToken ov s).state) := by
  rw [reqHandler.eq_def, h]

theorem reqHandler_step_noRetry {outcomes : Nat → AttemptOutcome ρ} {m : Nat} {toe : Bool}
    {ov : Option Nat} {a : Nat} {s : TokenState} {e : AxiosErr}
    (h : outcomes a = .axiosErr e) (hg : shouldRetry m a e.status = false) :
    reqHandler outcomes m toe ov a s =
      ((if toe then .thrown (simplifyAxiosError e) else .swallowed),
       [Event.attemptMade a (fetchToken ov s).tok (fetchToken ov s).fresh],
       (fetchToken ov s).state) := by
  rw [reqHandler.eq_def, h]
  dsimp only
  rw [dif_neg (by simp [hg])]
  split <;> rfl

theorem reqHandler_step_retry401 {outcomes : Nat → AttemptOutcome ρ} {m : Nat} {toe : Bool}
    {ov : Option Nat} {a : Nat} {s : TokenState} {e : AxiosErr}
    (h : outcomes a = .axiosErr e) (hg : shouldRetry m a e.status = true)
    (h401 : e.status = some 401) :
    reqHandler outcomes m toe ov a s =
      ((reqHandler outcomes m toe ov (a + 1)
          { (fetchToken ov s).state with access_token := none }).1,
       Event.attemptMade a (fetchToken ov s).tok (fetchToken ov s).fresh ::
         Event.invalidateToken ::
         (reqHandler outcomes m toe ov (a + 1)
            { (fetchToken ov s).state with access_token := none }).2.1,
       (reqHandler outcomes m toe ov (a + 1)
          { (fetchToken ov s).state with access_token := none }).2.2) := by
  rw [reqHandler.eq_def, h]
  dsimp only
  rw [dif_pos hg, if_pos (show (e.status == some 401) = true by rw [h401]; rfl)]

theorem reqHandler_step_retryOther {outcomes : Nat → AttemptOutcome ρ} {m : Nat} {toe : Bool}
    {ov : Option Nat} {a : Nat} {s : TokenState} {e : AxiosErr}
    (h : outcomes a = .axiosErr e) (hg : shouldRetry m a e.status = true)
    (h401 : (e.status == some 401) = false) :
    reqHandler outcomes m toe ov a s =
      ((reqHandler outcomes m toe ov (a + 1) (fetchToken ov s).state).1,
       Event.attemptMade a (fetchToken ov s).tok (fetchToken ov s).fresh ::
         (reqHandler outcomes m toe ov (a + 1) (fetchToken ov s).state).2.1,
       (reqHandler outcomes m toe ov (a + 1) (fetchToken ov s).state).2.2) := by
  rw [reqHandler.eq_def, h]
  dsimp only
  rw [dif_pos hg, if_neg (by simp [h401])]

theorem reqHandler_step_other {outcomes : Nat → AttemptOutcome ρ} {m : Nat} {toe : Bool}
    {ov : Option Nat} {a : Nat} {s : TokenState}
    (h : outcomes a = .otherErr) :
    reqHandler outcomes m toe ov a s =
      (.raisedOther,
       [Event.attemptMade a (fetchToken ov s).tok (fetchToken ov s).fresh],
       (fetchToken ov s).state) := by
  rw [reqHandler.eq_def, h]

theorem attemptIdxs_nil : attemptIdxs [] = [] := rfl

theorem attemptIdxs_cons_attempt (i t : Nat) (f : Bool) (tr : List Event) :
    attemptIdxs (Event.attemptMade i t f :: tr) = i :: attemptIdxs tr := rfl

theorem attemptIdxs_cons_invalidate (tr : List Event) :
    attemptIdxs (Event.invalidateToken :: tr) = attemptIdxs tr := rfl

theorem isRetryable_of_mem {c : Nat} (hc : c ∈ retryOn) : isRetryable (some c) = true := by
  simp only [retryOn, List.mem_cons, List.not_mem_nil, or_false] at hc
  rcases hc with rfl | rfl | rfl <;> rfl

theorem shouldRetry_of_lt {m a : Nat} {st : Option Nat} (ha : a < m)
    (hr : isRetryable st = true) : shouldRetry m a st = true := by
  simp only [shouldRetry, hr, Bool.and_true, Bool.and_eq_true, decide_eq_true_eq]
  omega

/-- Every `reqHandler` call opens its trace with its own transport attempt,
using the token that `fetch` resolves from the current token state. -/
theorem reqHandler_trace_head (outcomes : Nat → AttemptOutcome ρ) (m : Nat) (toe : Bool)
    (ov : Option Nat) (a : Nat) (s : TokenState) :
    ∃ tl, (reqHandler outcomes m toe ov a s).2.1 =
      Event.attemptMade a (fetchToken ov s).tok (fetchToken ov s).fresh :: tl := by
  cases ho : outcomes a with
  | ok r => exact ⟨[], by rw [reqHandler_step_ok ho]⟩
  | otherErr => exact ⟨[], by rw [reqHandler_step_other ho]⟩
  | axiosErr e =>
    cases hg : shouldRetry m a e.status with
    | false => exact ⟨_, by rw [reqHandler_step_noRetry ho hg]⟩
    | true =>
      cases h401 : (e.status == some 401) with
      | true => exact ⟨_, by rw [reqHandler_step_retry401 ho hg (eq_of_beq h401)]⟩
      | false => exact ⟨_, by rw [reqHandler_step_retryOther ho hg h401]⟩

/-- When every transport attempt fails with a retryable status, the attempt
counter sweeps `a, a+1, …, maxRetry` exactly once each. -/
theorem allFail_attemptIdxs (outcomes : Nat → AttemptOutcome ρ) (m : Nat) (toe : Bool)
    (ov : Option Nat)
    (hfail : ∀ k, ∃ e, outcomes k = .axiosErr e ∧ isRetryable e.status = true) :
    ∀ (n a : Nat) (s : TokenState), m - a ≤ n → a ≤ m →
      attemptIdxs (reqHandler outcomes m toe ov a s).2.1 = List.range' a (m + 1 - a) := by
  intro n
  induction n with
  | zero =>
    intro a s hn ha
    obtain ⟨e, he, _⟩ := hfail a
    rw [reqHandler_step_noRetry he (shouldRetry_of_ge _ (by omega))]
    have h1 : m + 1 - a = 1 := by omega
    rw [h1]
    rfl
  | succ n ih =>
    intro a s hn ha
    rcases Nat.lt_or_ge a m with ham | ham
    · obtain ⟨e, he, hr⟩ := hfail a
      have hg := shouldRetry_of_lt ham hr
      have hsplit : m + 1 - a = (m + 1 - (a + 1)) + 1 := by omega
      cases h401 : (e.status == some 401) with
      | true =>
        rw [reqHandler_step_retry401 he hg (eq_of_beq h401)]
        rw [attemptIdxs_cons_attempt, attemptIdxs_cons_invalidate,
          ih (a + 1) _ (by omega) (by omega), hsplit, List.range'_succ]
      | false =>
        rw [reqHandler_step_retryOther he hg h401]
        rw [attemptIdxs_cons_attempt, ih (a + 1) _ (by omega) (by omega),
          hsplit, List.range'_succ]
    · obtain ⟨e, he, _⟩ := hfail a
      rw [reqHandler_step_noRetry he (shouldRetry_of_ge _ ham)]
      have h1 : m + 1 - a = 1 := by omega
      rw [h1]
      rfl

/-- When every transport attempt fails at the transport level and
`throwOnError` is off, `reqHandler` swallows the failure: it returns the
JS `undefined`. -/
theorem allAxios_swallow (outcomes : Nat → AttemptOutcome ρ) (m : Nat) (ov : Option Nat)
    (hfail : ∀ k, ∃ e, outcomes k = .axiosErr e) :
    ∀ (n a : Nat) (s : TokenState), m - a ≤ n →
      (reqHandler outcomes m false ov a s).1 = .swallowed := by
  intro n
  induction n with
  | zero =>
    intro a s hn
    obtain ⟨e, he⟩ := hfail a
    rw [reqHandler_step_noRetry he (shouldRetry_of_ge _ (by omega))]
    rfl
  | succ n ih =>
    intro a s hn
    obtain ⟨e, he⟩ := hfail a
    cases hg : shouldRetry m a e.status with
    | false =>
      rw [reqHandler_step_noRetry he hg]
      rfl
    | true =>
      have halt := shouldRetry_lt hg
      cases h401 : (e.status == some 401) with
      | true =>
        rw [reqHandler_step_retry401 he hg (eq_of_beq h401)]
        exact ih (a + 1) _ (by omega)
      | false =>
        rw [reqHandler_step_retryOther he hg h401]
        exact ih (a + 1) _ (by omega)

/-- When every transport attempt fails at the transport level and
`throwOnError` is on, `reqHandler` throws the normalization of one of the
transport failures. -/
theorem allAxios_throw (outcomes : Nat → AttemptOutcome ρ) (m : Nat) (ov : Option Nat)
    (hfail : ∀ k, ∃ e, outcomes k = .axiosErr e) :
    ∀ (n a : Nat) (s : TokenState), m - a ≤ n →
      ∃ e, (∃ k, outcomes k = .axiosErr e) ∧
        (reqHandler outcomes m true ov a s).1 = .thrown (simplifyAxiosError e) := by
  intro n
  induction n with
  | zero =>
    intro a s hn
    obtain ⟨e, he⟩ := hfail a
    exact ⟨e, ⟨a, he⟩,
      by rw [reqHandler_step_noRetry he (shouldRetry_of_ge _ (by omega))]; rfl⟩
  | succ n ih =>
    intro a s hn
    obtain ⟨e, he⟩ := hfail a
    cases hg : shouldRetry m a e.status with
    | false => exact ⟨e, ⟨a, he⟩, by rw [reqHandler_step_noRetry he hg]; rfl⟩
    | true =>
      have halt := shouldRetry_lt hg
      cases h401 : (e.status == some 401) with
      | true =>
        obtain ⟨e', hk, hres⟩ := ih (a + 1)
          { (fetchToken ov s).state with access_token := none } (by omega)
        exact ⟨e', hk, by rw [reqHandler_step_retry401 he hg (eq_of_beq h401)]; exact hres⟩
      | false =>
        obtain ⟨e', hk, hres⟩ := ih (a + 1) (fetchToken ov s).state (by omega)
        exact ⟨e', hk, by rw [reqHandler_step_retryOther he hg h401]; exact hres⟩

/-- C1: with `maxRetry = n ≥ 1` and every transport attempt failing with a
status in the fixed retryable set `{401, 429, 500}`, the dispatcher
`reqHandler` makes exactly `n + 1` transport attempts (1 initial plus `n`
retries) before giving up — the attempt counter taking the values
`0, 1, …, n` in order — and the attempt counter never exceeds `maxRetry`. -/
theorem C1_retry_attempt_count (outcomes : Nat → AttemptOutcome ρ) (n : Nat) (toe : Bool)
    (ov : Option Nat) (s : TokenState) (hn : 1 ≤ n)
    (hfail : ∀ k, ∃ e, outcomes k = .axiosErr e ∧ ∃ c ∈ retryOn, e.status = some c) :
    (attemptIdxs (reqHandler outcomes n toe ov 0 s).2.1).length = n + 1 ∧
    attemptIdxs (reqHandler outcomes n toe ov 0 s).2.1 = List.range (n + 1) ∧
    ∀ i ∈ attemptIdxs (reqHandler outcomes n toe ov 0 s).2.1, i ≤ n := by
  have hfail' : ∀ k, ∃ e, outcomes k = .axiosErr e ∧ isRetryable e.status = true := by
    intro k
    obtain ⟨e, he, c, hc, hst⟩ := hfail k
    exact ⟨e, he, by rw [hst]; exact isRetryable_of_mem hc⟩
  have h := allFail_attemptIdxs outcomes n toe ov hfail' n 0 s (by omega) (by omega)
  have hr : List.range' 0 (n + 1 - 0) = List.range (n + 1) := by
    rw [Nat.sub_zero, List.range_eq_range']
  rw [hr] at h
  refine ⟨?_, h, ?_⟩
  · rw [h, List.length_range]
  · intro i hi
    rw [h, List.mem_range] at hi
    omega

/-- C1 witness: `maxRetry = 2`, every attempt a 500 — three transport
attempts, counters `0, 1, 2`, none exceeding 2. -/
theorem C1_retry_attempt_count_witness :
    (attemptIdxs (reqHandler alwaysFive00 2 true none 0 initialTokenState).2.1).length = 2 + 1 ∧
    attemptIdxs (reqHandler alwaysFive00 2 true none 0 initialTokenState).2.1 =
      List.range (2 + 1) ∧
    ∀ i ∈ attemptIdxs (reqHandler alwaysFive00 2 true none 0 initialTokenState).2.1, i ≤ 2 :=
  C1_retry_attempt_count alwaysFive00 2 true none initialTokenState (by decide)
    (fun _ => ⟨err500, rfl, 500, by decide, rfl⟩)

/-- C2: an attempt that fails with HTTP 401 and is retried performs exactly
one token invalidation before the next attempt (the trace between the two
attempts is exactly the `invalidateToken` event), and the next attempt runs
with a token freshly acquired by the client-credentials grant — the
generator's next identifier — when no explicit token override is supplied. -/
theorem C2_401_invalidate_then_fresh_token (outcomes : Nat → AttemptOutcome ρ) (m : Nat)
    (toe : Bool) (a : Nat) (s : TokenState) (e : AxiosErr)
    (houtcome : outcomes a = .axiosErr e) (hst : e.status = some 401) (ha : a < m) :
    ∃ tl,
      (reqHandler outcomes m toe none a s).2.1 =
        Event.attemptMade a (fetchToken none s).tok (fetchToken none s).fresh ::
        Event.invalidateToken ::
        Event.attemptMade (a + 1) (fetchToken none s).state.nextId true :: tl := by
  have hg : shouldRetry m a e.status = true := by
    rw [hst]
    exact shouldRetry_of_lt ha rfl
  rw [reqHandler_step_retry401 houtcome hg hst]
  obtain ⟨tl, htl⟩ := reqHandler_trace_head outcomes m toe none (a + 1)
    { (fetchToken none s).state with access_token := none }
  rw [htl]
  exact ⟨tl, rfl⟩

/-- C2 witness: first attempt fails with 401 (`maxRetry = 5`): the cached
token (id 0, freshly acquired) is invalidated exactly once, and attempt 1
runs with the newly granted token id 1. -/
theorem C2_401_invalidate_then_fresh_token_witness :
    ∃ tl,
      (reqHandler alwaysFour01 5 true none 0 initialTokenState).2.1 =
        Event.attemptMade 0 (fetchToken none initialTokenState).tok
          (fetchToken none initialTokenState).fresh ::
        Event.invalidateToken ::
        Event.attemptMade (0 + 1) (fetchToken none initialTokenState).state.nextId true :: tl :=
  C2_401_invalidate_then_fresh_token alwaysFour01 5 true 0 initialTokenState err401
    rfl rfl (by decide)

/-- C6: a logical request in which every transport attempt fails resolves,
with `throwOnError=false`, to `undefined` (`get` returns `.value none`, no
exception propagates), while with `throwOnError=true` the normalized
`FortytwoIntraClientError` of the terminal failure is thrown. -/
theorem C6_swallow_or_throw (outcomes : Nat → AttemptOutcome (Resp δ)) (m : Nat)
    (ov : Option Nat) (s : TokenState)
    (hfail : ∀ k, ∃ e, outcomes k = .axiosErr e) :
    get outcomes m false ov s = .value none ∧
    ∃ e, (∃ k, outcomes k = .axiosErr e) ∧
      get outcomes m true ov s = .error (simplifyAxiosError e) := by
  constructor
  · unfold get
    rw [allAxios_swallow outcomes m ov hfail m 0 s (by omega)]
  · obtain ⟨e, hk, hres⟩ := allAxios_throw outcomes m ov hfail m 0 s (by omega)
    exact ⟨e, hk, by unfold get; rw [hres]⟩

/-- C6 witness: every attempt a 500, default `maxRetry = 5`. -/
theorem C6_swallow_or_throw_witness :
    get alwaysFive00 5 false none initialTokenState = .value none ∧
    ∃ e, (∃ k, alwaysFive00 k = .axiosErr e) ∧
      get alwaysFive00 5 true none initialTokenState = .error (simplifyAxiosError e) :=
  C6_swallow_or_throw alwaysFive00 5 none initialTokenState (fun _ => ⟨err500, rfl⟩)

/-- C7: a failed transport attempt whose HTTP status is not in the fixed
retryable set `{401, 429, 500}` is immediately terminal regardless of the
remaining retry budget: exactly one transport attempt is made (the trace is
a single `attemptMade`), and the failure is normalized and thrown, or
swallowed, per `throwOnError`. -/
theorem C7_nonretryable_is_terminal (outcomes : Nat → AttemptOutcome ρ) (m : Nat) (toe : Bool)
    (ov : Option Nat) (a : Nat) (s : TokenState) (e : AxiosErr) (c : Nat)
    (houtcome : outcomes a = .axiosErr e) (hst : e.status = some c) (hc : c ∉ retryOn) :
    reqHandler outcomes m toe ov a s =
      ((if toe then .thrown (simplifyAxiosError e) else .swallowed),
       [Event.attemptMade a (fetchToken ov s).tok (fetchToken ov s).fresh],
       (fetchToken ov s).state) := by
  apply reqHandler_step_noRetry houtcome
  have hco : retryOn.contains c = false := by simpa using hc
  have hret : isRetryable e.status = false := by
    rw [hst]
    simp only [isRetryable, hco, Bool.and_false]
  simp [shouldRetry, hret]

/-- C7 witness: a 404 on the first attempt with `maxRetry = 5` and
`throwOnError=true`: one single attempt, the normalized error thrown. -/
theorem C7_nonretryable_is_terminal_witness :
    reqHandler four04ThenOk 5 true none 0 initialTokenState =
      ((if true then .thrown (simplifyAxiosError err404) else .swallowed),
       [Event.attemptMade 0 (fetchToken none initialTokenState).tok
          (fetchToken none initialTokenState).fresh],
       (fetchToken none initialTokenState).state) :=
  C7_nonretryable_is_terminal four04ThenOk 5 true none 0 initialTokenState err404 404
    rfl rfl (by decide)

/-! ## `Promise.all` assembly: completion order is immaterial -/

/-- Each settlement event pairs a position with that position's promise. -/
theorem mem_settleEvents {promises : List (ReqResult ρ)} {sched : List Nat}
    {p : Nat × ReqResult ρ} (hp : p ∈ settleEvents promises sched) :
    promises.get? p.1 = some p.2 := by
  unfold settleEvents at hp
  rw [List.mem_filterMap] at hp
  obtain ⟨j, _, hj⟩ := hp
  cases hg : promises.get? j with
  | none => rw [hg] at hj; simp at hj
  | some r =>
    rw [hg] at hj
    simp only [Option.map_some', Option.some.injEq] at hj
    rw [← hj]
    exact hg

/-- When every promise settles exactly once (`sched` is a permutation of
the positions), looking a position up among the settlement events finds
exactly that position's promise. -/
theorem settleEvents_perm_find (promises : List (ReqResult ρ)) (sched : List Nat)
    (hperm : sched.Perm (List.range promises.length)) (i : Nat) (hi : i < promises.length) :
    (settleEvents promises sched).find? (fun p => p.1 == i) =
      (promises.get? i).map fun r => (i, r) := by
  have hmem : (i, promises.get ⟨i, hi⟩) ∈ settleEvents promises sched := by
    unfold settleEvents
    rw [List.mem_filterMap]
    refine ⟨i, hperm.mem_iff.mpr (List.mem_range.mpr hi), ?_⟩
    rw [List.get?_eq_get hi, Option.map_some']
  rw [List.get?_eq_get hi, Option.map_some']
  cases hfind : (settleEvents promises sched).find? (fun p => p.1 == i) with
  | none =>
    exfalso
    have := List.find?_eq_none.mp hfind _ hmem
    simp at this
  | some q =>
    have hq1 : q.1 = i := by
      have := List.find?_some hfind
      simpa using this
    have hq2 := mem_settleEvents (List.mem_of_find?_eq_some hfind)
    rw [hq1, List.get?_eq_get hi, Option.some.injEq] at hq2
    have hq : q = (i, promises.get ⟨i, hi⟩) := by
      cases q
      simp_all
    rw [hq]

/-- `Promise.all` resolves to the fulfilment values in input order whenever
the completion order is a permutation of the batch positions — whatever that
order is. -/
theorem promiseAllValues_perm (promises : List (ReqResult ρ)) (sched : List Nat)
    (hperm : sched.Perm (List.range promises.length)) :
    promiseAllValues promises sched = some (promises.map fulfillVal) := by
  have hslots : (List.range promises.length).map
        (fun i => (settleEvents promises sched).find? fun p => p.1 == i) =
      (List.range promises.length).map
        (fun i => (promises.get? i).map fun r => (i, r)) :=
    List.map_eq_map_iff.mpr fun i hi =>
      settleEvents_perm_find promises sched hperm i (List.mem_range.mp hi)
  have hany : ((List.range promises.length).map
        (fun i => (promises.get? i).map fun r => (i, r))).any (fun sl => sl.isNone) = false := by
    rw [List.any_eq_false]
    intro sl hsl
    rw [List.mem_map] at hsl
    obtain ⟨i, hi, rfl⟩ := hsl
    rw [List.mem_range] at hi
    rw [List.get?_eq_get hi]
    simp
  unfold promiseAllValues
  dsimp only
  rw [hslots, hany]
  rw [if_neg (by simp)]
  refine congrArg some (List.ext_getElem (by simp) ?_)
  intro i h1 h2
  simp only [List.getElem_map, List.getElem_range]
  rw [List.get?_eq_get (by simpa using h2)]
  rfl

theorem filterMap_some_eq_map (pg : β → γ) (l : List β) :
    l.filterMap (fun x => some (pg x)) = l.map pg := by
  induction l with
  | nil => rfl
  | cons a t ih => rw [List.filterMap_cons, List.map_cons, ← ih]

/-- A batch with no rejected promise never makes `Promise.all` reject. -/
theorem firstRejection_eq_none (promises : List (ReqResult ρ)) (sched : List Nat)
    (hok : ∀ r ∈ promises, (∃ x, r = .success x) ∨ r = .swallowed) :
    firstRejection promises sched = none := by
  unfold firstRejection
  rw [List.findSome?_eq_none_iff]
  intro p hp
  have hmem : p.2 ∈ promises := List.get?_mem (mem_settleEvents hp)
  rcases hok p.2 hmem with ⟨x, hx⟩ | hx <;> rw [hx]

/-- Reduction of `getAll` on the fan-out path: page 1 succeeded and the
`Link` header parse produced a capped last page. -/
theorem getAllSched_fanout (dispatch : Nat → ReqResult (PageResponse α))
    (maxPages : Option Nat) (sched : List Nat) (fp : PageResponse α) (lp : Nat)
    (h1 : dispatch 1 = .success fp)
    (htry : tryLastPage (some fp) maxPages = .ok (fp, lp)) :
    getAllSched dispatch maxPages sched =
      (awaitAllAndMerge fp ((List.range' 2 (lp - 1)).map dispatch) sched,
       1 :: List.range' 2 (lp - 1)) := by
  unfold getAllSched
  rw [h1]
  simp only [fulfillVal, htry]

/-- C5: when page 1's response carries no `Link` header parsable for a last
page, `getAll` returns exactly the first page's item list, and the page-1
dispatch is the only network dispatch issued. -/
theorem C5_no_link_single_page (dispatch : Nat → ReqResult (PageResponse α))
    (maxPages : Option Nat) (sched : List Nat) (fp : PageResponse α)
    (h1 : dispatch 1 = .success fp) (hlink : getLastPage fp.link = .error ()) :
    getAllSched dispatch maxPages sched = (.items fp.data, [1]) := by
  unfold getAllSched
  rw [h1]
  simp only [fulfillVal, tryLastPage, hlink]

/-- C5 witness: a server answering with no `Link` header. -/
theorem C5_no_link_single_page_witness :
    getAllSched noLinkServer none [] = (.items [1], [1]) :=
  C5_no_link_single_page noLinkServer none [] ⟨[1], none⟩ rfl rfl

/-- C10: when the page-1 dispatch was swallowed (`throwOnError=false`
exhausted its retries), the `TypeError` raised by `firstPage.headers` is
caught by the same handler as a `Link`-parse failure: `getAll` resolves to
`undefined` (`firstPage?.data`) and no fan-out page is ever dispatched. -/
theorem C10_swallowed_first_page (dispatch : Nat → ReqResult (PageResponse α))
    (maxPages : Option Nat) (sched : List Nat)
    (h1 : dispatch 1 = .swallowed) :
    getAllSched dispatch maxPages sched = (.undef, [1]) := by
  unfold getAllSched
  rw [h1]
  simp only [fulfillVal, tryLastPage]

/-- C10 witness: every dispatch swallowed. -/
theorem C10_swallowed_first_page_witness :
    getAllSched swallowedPage1Server none [] = (.undef, [1]) :=
  C10_swallowed_first_page swallowedPage1Server none [] rfl

/-- C4: with `maxPages = m ≥ 1` configured and page 1's `Link` header
reporting last page `l`, the effective last page is `min l m`: the
dispatched pages are exactly `1, 2, …, min l m`, so no page beyond
`maxPages` is ever requested even when the server reports more. -/
theorem C4_maxPages_caps (dispatch : Nat → ReqResult (PageResponse α)) (m : Nat)
    (sched : List Nat) (fp : PageResponse α) (l : Nat)
    (h1 : dispatch 1 = .success fp) (hm : 1 ≤ m)
    (hlink : getLastPage fp.link = .ok l) :
    (getAllSched dispatch (some m) sched).2 = 1 :: List.range' 2 (min l m - 1) ∧
    ∀ p ∈ (getAllSched dispatch (some m) sched).2, p ≤ m := by
  have hm0 : (m != 0) = true := by
    simp only [bne_iff_ne, ne_eq]
    omega
  have htry : tryLastPage (some fp) (some m) = .ok (fp, min l m) := by
    simp [tryLastPage, hlink, hm0]
  rw [getAllSched_fanout dispatch (some m) sched fp (min l m) h1 htry]
  refine ⟨rfl, ?_⟩
  intro p hp
  simp only [List.mem_cons, List.mem_range'_1] at hp
  rcases hp with rfl | ⟨h2, hlt⟩
  · exact hm
  · omega

/-- C4 witness: server reports 3 pages, `maxPages = 2`: pages 1 and 2 only. -/
theorem C4_maxPages_caps_witness :
    (getAllSched threePageServer (some 2) [0]).2 = 1 :: List.range' 2 (min 3 2 - 1) ∧
    ∀ p ∈ (getAllSched threePageServer (some 2) [0]).2, p ≤ 2 :=
  C4_maxPages_caps threePageServer 2 [0] (threePageData 1) 3 rfl (by decide) rfl

/-- C9: in a multi-page `getAll` where no page dispatch rejects (the
non-throwing mode) but at least one fanned-out page is swallowed, the merge
step accesses `.data` on `undefined`: the call terminates in a `TypeError`
— neither a shortened item list nor a domain error. -/
theorem C9_swallowed_fanout_typeError (dispatch : Nat → ReqResult (PageResponse α))
    (sched : List Nat) (fp : PageResponse α) (l : Nat) (i0 : Nat)
    (h1 : dispatch 1 = .success fp)
    (hlink : getLastPage fp.link = .ok l)
    (hperm : sched.Perm (List.range (l - 1)))
    (hok : ∀ i ∈ List.range' 2 (l - 1),
      (∃ r, dispatch i = .success r) ∨ dispatch i = .swallowed)
    (hi0 : i0 ∈ List.range' 2 (l - 1)) (hsw : dispatch i0 = .swallowed) :
    getAllSched dispatch none sched = (.typeError, 1 :: List.range' 2 (l - 1)) := by
  have htry : tryLastPage (some fp) none = .ok (fp, l) := by
    simp [tryLastPage, hlink]
  rw [getAllSched_fanout dispatch none sched fp l h1 htry]
  have hok' : ∀ r ∈ (List.range' 2 (l - 1)).map dispatch,
      (∃ x, r = .success x) ∨ r = .swallowed := by
    intro r hr
    rw [List.mem_map] at hr
    obtain ⟨i, hi, rfl⟩ := hr
    rcases hok i hi with ⟨x, hx⟩ | hx
    · exact Or.inl ⟨x, hx⟩
    · exact Or.inr hx
  have hperm' : sched.Perm (List.range ((List.range' 2 (l - 1)).map dispatch).length) := by
    simpa using hperm
  have hmerge : awaitAllAndMerge fp ((List.range' 2 (l - 1)).map dispatch) sched =
      .typeError := by
    unfold awaitAllAndMerge
    rw [firstRejection_eq_none _ _ hok', promiseAllValues_perm _ _ hperm']
    have hnone : (none : Option (PageResponse α)) ∈
        ((List.range' 2 (l - 1)).map dispatch).map fulfillVal := by
      rw [List.mem_map]
      exact ⟨dispatch i0, List.mem_map_of_mem dispatch hi0, by rw [hsw]; rfl⟩
    have hany : (((List.range' 2 (l - 1)).map dispatch).map fulfillVal).any
        (fun o => o.isNone) = true := by
      rw [List.any_eq_true]
      exact ⟨none, hnone, rfl⟩
    dsimp only
    unfold mergePages
    rw [if_pos hany]
  rw [hmerge]

/-- C9 witness: three pages, page 2 swallowed, pages 2 and 3 completing in
order `[0, 1]`. -/
theorem C9_swallowed_fanout_typeError_witness :
    getAllSched swallowedPage2Server none [0, 1] =
      (.typeError, 1 :: List.range' 2 (3 - 1)) :=
  C9_swallowed_fanout_typeError swallowedPage2Server [0, 1] (threePageData 1) 3 2
    rfl rfl (by decide)
    (by
      intro i hi
      rw [List.mem_range'_1] at hi
      obtain ⟨h2, h4⟩ := hi
      interval_cases i
      · exact Or.inr rfl
      · exact Or.inl ⟨threePageData 3, rfl⟩)
    (by decide) rfl

/-- C3: a multi-page `getAll` in which every page dispatch succeeds returns
exactly the concatenation of the per-page item lists in ascending page
order — page 1 first, then pages `2 … lastPage` in batch-index order —
for every completion order `sched` of the fan-out, and the result's length
is the sum of the pages' item counts. -/
theorem C3_pages_ascending_order (dispatch : Nat → ReqResult (PageResponse α))
    (sched : List Nat) (fp : PageResponse α) (l : Nat) (pg : Nat → PageResponse α)
    (h1 : dispatch 1 = .success fp)
    (hlink : getLastPage fp.link = .ok l)
    (hpg : ∀ i, 2 ≤ i → i ≤ l → dispatch i = .success (pg i))
    (hperm : sched.Perm (List.range (l - 1))) :
    getAllSched dispatch none sched =
      (.items (fp.data ++ ((List.range' 2 (l - 1)).map (fun i => (pg i).data)).flatten),
       1 :: List.range' 2 (l - 1)) ∧
    (fp.data ++ ((List.range' 2 (l - 1)).map (fun i => (pg i).data)).flatten).length =
      fp.data.length + ((List.range' 2 (l - 1)).map (fun i => (pg i).data.length)).sum := by
  have htry : tryLastPage (some fp) none = .ok (fp, l) := by
    simp [tryLastPage, hlink]
  constructor
  · rw [getAllSched_fanout dispatch none sched fp l h1 htry]
    have hok' : ∀ r ∈ (List.range' 2 (l - 1)).map dispatch,
        (∃ x, r = .success x) ∨ r = .swallowed := by
      intro r hr
      rw [List.mem_map] at hr
      obtain ⟨i, hi, rfl⟩ := hr
      rw [List.mem_range'_1] at hi
      exact Or.inl ⟨pg i, hpg i hi.1 (by omega)⟩
    have hperm' : sched.Perm (List.range ((List.range' 2 (l - 1)).map dispatch).length) := by
      simpa using hperm
    have hmerge : awaitAllAndMerge fp ((List.range' 2 (l - 1)).map dispatch) sched =
        .items (fp.data ++ ((List.range' 2 (l - 1)).map (fun i => (pg i).data)).flatten) := by
      unfold awaitAllAndMerge
      rw [firstRejection_eq_none _ _ hok', promiseAllValues_perm _ _ hperm']
      have hpgm : (List.range' 2 (l - 1)).map dispatch =
          (List.range' 2 (l - 1)).map (fun i => .success (pg i)) := by
        apply List.map_eq_map_iff.mpr
        intro i hi
        rw [List.mem_range'_1] at hi
        exact hpg i hi.1 (by omega)
      rw [hpgm, List.map_map]
      have hfv : (fulfillVal ∘ fun i => ReqResult.success (pg i)) =
          fun i => some (pg i) := rfl
      rw [hfv]
      have hany : ((List.range' 2 (l - 1)).map (fun i => some (pg i))).any
          (fun o => o.isNone) = false := by
        rw [List.any_eq_false]
        intro o ho
        rw [List.mem_map] at ho
        obtain ⟨i, _, rfl⟩ := ho
        simp
      simp only [mergePages, hany, Bool.false_eq_true, if_false]
      have hsome : (List.range' 2 (l - 1)).map (fun i => some (pg i)) =
          ((List.range' 2 (l - 1)).map pg).map some := by
        rw [List.map_map]
        rfl
      rw [hsome]
      simp only [List.filterMap_map, Function.comp_def, id, List.filterMap_some,
        List.map_map]
      rw [filterMap_some_eq_map pg (List.range' 2 (l - 1)), List.map_map]
      rfl
    rw [hmerge]
  · simp only [List.length_append, List.length_flatten, List.map_map]
    rfl

/-- C3 witness: three pages, the two fanned-out pages completing in
reversed order `[1, 0]`; the result is still in ascending page order. -/
theorem C3_pages_ascending_order_witness :
    getAllSched threePageServer none [1, 0] =
      (.items ((threePageData 1).data ++
        ((List.range' 2 (3 - 1)).map (fun i => (threePageData i).data)).flatten),
       1 :: List.range' 2 (3 - 1)) ∧
    ((threePageData 1).data ++
      ((List.range' 2 (3 - 1)).map (fun i => (threePageData i).data)).flatten).length =
      (threePageData 1).data.length +
        ((List.range' 2 (3 - 1)).map (fun i => (threePageData i).data.length)).sum :=
  C3_pages_ascending_order threePageServer [1, 0] (threePageData 1) 3 threePageData
    rfl rfl (fun _ _ _ => rfl) (by decide)

/-! ## The query-parameter merge -/

theorem recGet_cons (p : String × String) (t : List (String × String)) (k : String) :
    recGet (p :: t) k = if p.1 == k then some p.2 else recGet t k := by
  cases h : (p.1 == k) <;> simp [recGet, List.find?_cons, h]

/-- Property assignment then lookup: the assigned key reads the new value,
every other key is untouched. -/
theorem recGet_recSet (m : List (String × String)) (k' v k : String) :
    recGet (recSet m k' v) k = if k == k' then some v else recGet m k := by
  induction m with
  | nil =>
    by_cases h : k = k'
    · subst h
      simp [recSet, recGet]
    · have hb : (k' == k) = false := by
        simp only [beq_eq_false_iff_ne, ne_eq]
        exact fun hk => h hk.symm
      have hb' : (k == k') = false := by
        simp only [beq_eq_false_iff_ne, ne_eq]
        exact h
      simp [recSet, recGet, hb, hb']
  | cons p t ih =>
    unfold recSet
    by_cases hp : p.1 = k'
    · rw [if_pos (by simp [hp])]
      rw [recGet_cons, recGet_cons]
      by_cases h : k = k'
      · subst h
        simp [hp]
      · have h1 : (k' == k) = false := by
          simp only [beq_eq_false_iff_ne, ne_eq]
          exact fun hk => h hk.symm
        have h2 : (k == k') = false := by
          simp only [beq_eq_false_iff_ne, ne_eq]
          exact h
        have h3 : (p.1 == k) = false := by
          rw [hp]
          exact h1
        simp [h1, h2, h3]
    · rw [if_neg (by simp [hp])]
      rw [recGet_cons, recGet_cons, ih]
      by_cases h : k = p.1
      · have hkk' : (k == k') = false := by
          simp only [beq_eq_false_iff_ne, ne_eq]
          intro hk
          exact hp (by rw [← h, hk])
        have hpk : (p.1 == k) = true := by simp [h]
        simp [hpk, hkk']
      · have hpk : (p.1 == k) = false := by
          simp only [beq_eq_false_iff_ne, ne_eq]
          exact fun hk => h hk.symm
        simp [hpk]

/-- The last assignment of a key in a pair sequence, peeled head-first. -/
theorem lastVal_cons (q : String × String) (t : List (String × String)) (k : String) :
    lastVal (q :: t) k = (lastVal t k).or (if q.1 == k then some q.2 else none) := by
  unfold lastVal
  rw [List.reverse_cons, List.find?_append]
  cases h : List.find? (fun p => p.1 == k) t.reverse with
  | some r => simp
  | none =>
    cases hq : (q.1 == k) <;> simp [List.find?_cons, hq]

/-- Folding property assignments over a pair sequence: lookup afterwards
yields the last assigned value of the key, falling back to the initial
object. -/
theorem recGet_foldl (l : List (String × String)) (init : List (String × String)) (k : String) :
    recGet (l.foldl (fun m kv => recSet m kv.1 kv.2) init) k =
      (lastVal l k).or (recGet init k) := by
  induction l generalizing init with
  | nil => simp [lastVal]
  | cons kv t ih =>
    rw [List.foldl_cons, ih, recGet_recSet, lastVal_cons, Option.or_assoc]
    by_cases h : k = kv.1
    · subst h
      simp
    · have h1 : (k == kv.1) = false := by
        simp only [beq_eq_false_iff_ne, ne_eq]
        exact h
      have h2 : (kv.1 == k) = false := by
        simp only [beq_eq_false_iff_ne, ne_eq]
        exact fun hk => h hk.symm
      simp [h1, h2]

/-- C8: the parameter map handed to the transport is the merge of the query
parameters found on the target URL with the explicitly supplied query
parameters — on a key collision the explicit parameter wins — and the URL
handed to the transport has its query string stripped. -/
theorem C8_param_merge_explicit_wins (url : UrlModel) (query : List (String × String))
    (k : String) :
    (fetchTransportArgs url query).1 = { url with searchParams := [] } ∧
    recGet (fetchTransportArgs url query).2 k =
      (lastVal query k).or (lastVal url.searchParams k) := by
  refine ⟨rfl, ?_⟩
  show recGet (spread (buildUrlParams url.searchParams) query) k = _
  unfold spread buildUrlParams
  rw [recGet_foldl, recGet_foldl]
  rw [show recGet ([] : List (String × String)) k = none from rfl, Option.or_none]

end FortytwoIntra
